import Mathlib

/-!
# Verification of the webmcp-crawler manifest pipeline

Shallow embedding of `src/index.ts` of the `webmcp-crawler` repository:
the origin normalizer (`normalizeUrl`), the single-origin checker
(`checkUrl`), the manifest schema validator (the inline `webmcpSchema`
compiled with ajv), the CSV input parser (`parseCsvUrls`), the CSV
serializer (`escapeCsvField` / `resultsToCsv`) and the batch runner
(`runBatch`).

Platform primitives used by the source (`String.prototype.trim`,
`String.prototype.toLowerCase`, the WHATWG `URL` constructor with its
`origin` accessor, `fetch`, `JSON.parse`, and the ajv validator for the
fixed draft-07 schema) are modelled explicitly below; each model is
documented at its definition.  Network I/O is modelled by passing the
fetch outcome as an explicit oracle `String → FetchResult`.
-/

namespace Crawler

/-- JSON values as produced by `JSON.parse`.  Object fields keep their
textual order; `JSON.parse` output has pairwise-distinct keys (later
duplicates in the text overwrite earlier ones before any code here sees
the value), and field lookup is by first match. -/
inductive Json where
  | null
  | bool (b : Bool)
  | num (q : Rat)
  | str (s : String)
  | arr (elems : List Json)
  | obj (fields : List (String × Json))

/-- Property access `o[key]` on a parsed JSON value. -/
def Json.getField (j : Json) (key : String) : Option Json :=
  match j with
  | .obj fields => fields.lookup key
  | _ => none

/-- The record produced by `checkUrl` (interface `CheckResult` in the
source). -/
structure CheckResult where
  url : String
  detected : Bool
  valid : Bool
  version : String
  toolCount : Nat
  toolNames : String
  error : String
deriving DecidableEq, Repr

/-- Outcome of the `fetch` call in `checkUrl`: either the `try/catch`
around `fetch` caught a transport error (carrying `err.message`), or a
response arrived with an HTTP status and a body; `body = some j` means
`response.json()` succeeded with value `j`, `body = none` means it threw
(not parseable as JSON). -/
inductive FetchResult where
  | networkError (msg : String)
  | response (status : Nat) (body : Option Json)

/-! ## Character-level helpers (JS string primitives) -/

/-- ASCII model of `String.prototype.toLowerCase` at the character
level: `Char.toLower` lowercases exactly `A`–`Z`. -/
def lowerChars (cs : List Char) : List Char := cs.map Char.toLower

/-- Model of `String.prototype.trim`: strip leading and trailing
whitespace (ASCII whitespace; the inputs relevant here contain no other
whitespace code points). -/
def jsTrimChars (cs : List Char) : List Char :=
  ((cs.dropWhile Char.isWhitespace).reverse.dropWhile Char.isWhitespace).reverse

/-- `String.prototype.trim` on `String`. -/
def jsTrim (s : String) : String := ⟨jsTrimChars s.data⟩

/-- `String.prototype.toLowerCase` on `String`. -/
def jsToLower (s : String) : String := ⟨lowerChars s.data⟩

/-- `s.take p.length == p`: does `s` start with `p`? -/
def startsWithChars (p s : List Char) : Bool := s.take p.length == p

/-! ## Model of the WHATWG `URL` constructor restricted to http/https

`normalizeUrl` only ever parses strings that begin with `http://` or
`https://` (case-insensitively); the model covers that fragment: it
parses `scheme://[userinfo@]host[:port]`, stops the authority at the
first `/`, `?`, `#` or `\`, rejects an empty or forbidden-character
host, lowercases the host, and canonicalizes a digit port (leading
zeros dropped, a default port — 80 for http, 443 for https — omitted,
ports above 65535 rejected).  IPv6 bracket hosts and percent-decoding
of hosts are outside the model (such inputs are rejected rather than
parsed). -/

/-- Code points forbidden in a URL host (WHATWG forbidden host code
points): NUL, TAB, LF, CR, space, `#`, `/`, `:`, `<`, `>`, `?`, `@`,
`[`, `\`, `]`, `^`, `|`. -/
def forbiddenHostChar (c : Char) : Bool :=
  c.toNat = 0 || c.toNat = 9 || c.toNat = 10 || c.toNat = 13 ||
  c.toNat = 32 || c.toNat = 35 || c.toNat = 47 || c.toNat = 58 ||
  c.toNat = 60 || c.toNat = 62 || c.toNat = 63 || c.toNat = 64 ||
  c.toNat = 91 || c.toNat = 92 || c.toNat = 93 || c.toNat = 94 ||
  c.toNat = 124

/-- ASCII digit test (the `\d` character class / `Char.isDigit` of the
platform), phrased on code points. -/
def isDigitChar (c : Char) : Bool :=
  decide (48 ≤ c.toNat) && decide (c.toNat ≤ 57)

structure ParsedURL where
  scheme : List Char
  host : List Char
  port : Option (List Char)
deriving DecidableEq, Repr

/-- Numeric value of a digit string. -/
def portValue (cs : List Char) : Nat :=
  cs.foldl (fun a c => a * 10 + (c.toNat - 48)) 0

/-- Canonical decimal form of a digit string: leading zeros removed
(`"0"` if all zeros). -/
def canonPort (cs : List Char) : List Char :=
  let t := cs.dropWhile (fun c => c = '0')
  if t.isEmpty then ['0'] else t

/-- Default port of an http(s) scheme. -/
def defaultPortValue (scheme : List Char) : Nat :=
  if scheme = "http".data then 80 else 443

/-- Split the authority's host[:port] part (after removing userinfo)
into a host and an optional canonical port. -/
def parseHostPort (scheme hp : List Char) : Option ParsedURL :=
  let host := hp.takeWhile (fun c => c ≠ ':')
  let rest := hp.dropWhile (fun c => c ≠ ':')
  if host.isEmpty then none
  else if host.any forbiddenHostChar then none
  else
    let host := lowerChars host
    match rest with
    | [] => some ⟨scheme, host, none⟩
    | _ :: portChars =>
      if portChars.isEmpty then some ⟨scheme, host, none⟩
      else if portChars.all isDigitChar then
        if portValue portChars ≤ 65535 then
          if portValue portChars = defaultPortValue scheme then
            some ⟨scheme, host, none⟩
          else some ⟨scheme, host, some (canonPort portChars)⟩
        else none
      else none

/-- Recognize and strip the scheme (case-insensitively). -/
def schemeAndRest (cs : List Char) : Option (List Char × List Char) :=
  if startsWithChars "https://".data (lowerChars cs) then
    some ("https".data, cs.drop 8)
  else if startsWithChars "http://".data (lowerChars cs) then
    some ("http".data, cs.drop 7)
  else none

/-- Model of `new URL(s)` for strings carrying an http(s) scheme:
`none` models the constructor throwing. -/
def parseHttpUrl (cs : List Char) : Option ParsedURL :=
  match schemeAndRest cs with
  | none => none
  | some (scheme, rest) =>
    let auth := rest.takeWhile
      (fun c => c ≠ '/' && c ≠ '?' && c ≠ '#' && c ≠ '\\')
    let hp := (auth.reverse.takeWhile (fun c => c ≠ '@')).reverse
    parseHostPort scheme hp

/-- The `":" ++ port` suffix of a serialized origin. -/
def portTail : Option (List Char) → List Char
  | none => []
  | some p => ':' :: p

/-- Model of `URL.prototype.origin` for an http(s) URL: scheme, `://`,
host, and the port when non-default. -/
def originChars (u : ParsedURL) : List Char :=
  u.scheme ++ "://".data ++ u.host ++ portTail u.port

/-- Does the string begin with `http://` or `https://`,
case-insensitively?  (The regex test `/^https?:\/\//i` of the source.) -/
def hasHttpScheme (cs : List Char) : Bool :=
  startsWithChars "http://".data (lowerChars cs) ||
  startsWithChars "https://".data (lowerChars cs)

/-- `normalizeUrl` from the source: trim, prepend `https://` when no
http(s) scheme is present, parse as a URL and return the origin;
`none` models the `URL` constructor throwing (caught by callers). -/
def normalizeUrl (input : String) : Option String :=
  let url := jsTrimChars input.data
  let url := if hasHttpScheme url then url else "https://".data ++ url
  (parseHttpUrl url).map (fun u => ⟨originChars u⟩)

/-! ## Model of the ajv `date-time` format check (ajv-formats)

RFC 3339 `full-date "T" full-time`: the separator may be `T`, `t` or
whitespace, the date part is `YYYY-MM-DD` with a calendar day check,
the time part is `hh:mm:ss` with an optional fraction and a mandatory
`z`/`Z`/`±hh[:mm]` offset, allowing the leap second `23:59:60`. -/

def digitVal (c : Char) : Nat := c.toNat - 48

def isLeapYear (y : Nat) : Bool := y % 4 = 0 && (y % 100 ≠ 0 || y % 400 = 0)

def daysInMonth (y m : Nat) : Nat :=
  if m = 2 then (if isLeapYear y then 29 else 28)
  else if m = 4 || m = 6 || m = 9 || m = 11 then 30
  else 31

def dateOk : List Char → Bool
  | [y1, y2, y3, y4, '-', m1, m2, '-', d1, d2] =>
    (isDigitChar y1 && isDigitChar y2 && isDigitChar y3 && isDigitChar y4 &&
     isDigitChar m1 && isDigitChar m2 && isDigitChar d1 && isDigitChar d2) &&
    (let y := ((digitVal y1 * 10 + digitVal y2) * 10 + digitVal y3) * 10 + digitVal y4
     let m := digitVal m1 * 10 + digitVal m2
     let d := digitVal d1 * 10 + digitVal d2
     decide (1 ≤ m) && decide (m ≤ 12) && decide (1 ≤ d) && decide (d ≤ daysInMonth y m))
  | _ => false

def tzOk : List Char → Bool
  | ['z'] => true
  | ['Z'] => true
  | [s, a, b] => (s = '+' || s = '-') && isDigitChar a && isDigitChar b
  | [s, a, b, c, d] =>
    (s = '+' || s = '-') && isDigitChar a && isDigitChar b && isDigitChar c && isDigitChar d
  | [s, a, b, ':', c, d] =>
    (s = '+' || s = '-') && isDigitChar a && isDigitChar b && isDigitChar c && isDigitChar d
  | _ => false

def timeOk (cs : List Char) : Bool :=
  match cs with
  | h1 :: h2 :: ':' :: m1 :: m2 :: ':' :: s1 :: s2 :: rest =>
    (isDigitChar h1 && isDigitChar h2 && isDigitChar m1 && isDigitChar m2 &&
     isDigitChar s1 && isDigitChar s2) &&
    (let hour := digitVal h1 * 10 + digitVal h2
     let minute := digitVal m1 * 10 + digitVal m2
     let sec := digitVal s1 * 10 + digitVal s2
     let tz : Option (List Char) :=
       match rest with
       | '.' :: r =>
         if (r.takeWhile isDigitChar).isEmpty then none
         else some (r.dropWhile isDigitChar)
       | r => some r
     match tz with
     | none => false
     | some tzc =>
       tzOk tzc &&
       ((decide (hour ≤ 23) && decide (minute ≤ 59) && decide (sec ≤ 59)) ||
        (decide (hour = 23) && decide (minute = 59) && decide (sec = 60))))
  | _ => false

def dateTimeSep (c : Char) : Bool := c = 'T' || c = 't' || Char.isWhitespace c

def splitOnPred (p : Char → Bool) : List Char → List (List Char)
  | [] => [[]]
  | c :: cs =>
    let r := splitOnPred p cs
    if p c then [] :: r
    else
      match r with
      | [] => [[c]]
      | h :: t => (c :: h) :: t

def isDateTime (s : String) : Bool :=
  match splitOnPred dateTimeSep s.data with
  | [d, t] => dateOk d && timeOk t
  | _ => false

/-! ## Model of the ajv validator compiled from the inline `webmcpSchema`

The schema is the literal object of `src/index.ts` (draft-07, compiled
with `allErrors: true`): every violation is collected, as a pair of the
ajv `instancePath` and a human-readable message.  String-only keywords
(`pattern`, `minLength`, `format`), the number-only keyword `minimum`
and the array-only keywords (`minItems`, `items`) are skipped on values
of another type, as in JSON Schema. -/

abbrev Violation := String × String

def enumMsg : String := "must be equal to one of the allowed values"

def hasKey (fields : List (String × Json)) (k : String) : Bool :=
  (fields.lookup k).isSome

def requiredErrs (path : String) (fields : List (String × Json))
    (keys : List String) : List Violation :=
  keys.filterMap fun k =>
    if hasKey fields k then none
    else some (path, "must have required property " ++ k)

def additionalErrs (path : String) (fields : List (String × Json))
    (allowed : List String) : List Violation :=
  fields.filterMap fun kv =>
    if allowed.contains kv.1 then none
    else some (path, "must NOT have additional properties")

def typeErrs (path kind : String) (ok : Bool) : List Violation :=
  if ok then [] else [(path, "must be " ++ kind)]

def Json.isStr : Json → Bool | .str _ => true | _ => false
def Json.isObj : Json → Bool | .obj _ => true | _ => false
def Json.isArr : Json → Bool | .arr _ => true | _ => false
def Json.isBool : Json → Bool | .bool _ => true | _ => false
def Json.isNum : Json → Bool | .num _ => true | _ => false

/-- `enum` check (applies to any type). -/
def enumErrs (path : String) (j : Json) (allowed : List String) : List Violation :=
  match j with
  | .str s => if allowed.contains s then [] else [(path, enumMsg)]
  | _ => [(path, enumMsg)]

/-- `type: string` with `minLength: 1`. -/
def strMinLenErrs (path : String) (j : Json) : List Violation :=
  typeErrs path "string" j.isStr ++
  (match j with
   | .str s => if 1 ≤ s.length then [] else [(path, "must NOT be shorter than 1 characters")]
   | _ => [])

/-- `type: array` with `items: { type: string }`. -/
def stringArrayErrs (path : String) (j : Json) : List Violation :=
  typeErrs path "array" j.isArr ++
  (match j with
   | .arr elems =>
     elems.enum.flatMap fun ie =>
       typeErrs (path ++ "/" ++ toString ie.1) "string" ie.2.isStr
   | _ => [])

def isLowerAlpha (c : Char) : Bool := 'a' ≤ c && c ≤ 'z'

/-- The `^[a-z][a-z0-9_]*$` pattern of `tools[].name`. -/
def toolNamePattern (s : String) : Bool :=
  match s.data with
  | [] => false
  | c :: rest =>
    isLowerAlpha c && rest.all fun c => isLowerAlpha c || isDigitChar c || c = '_'

def vManifestVersion (j : Json) : List Violation :=
  typeErrs "/manifest_version" "string" j.isStr ++ enumErrs "/manifest_version" j ["0.1"]

def vOrigin (j : Json) : List Violation :=
  typeErrs "/origin" "string" j.isStr ++
  (match j with
   | .str s =>
     if startsWithChars "http://".data s.data || startsWithChars "https://".data s.data
     then [] else [("/origin", "must match pattern")]
   | _ => [])

def vUpdatedAt (j : Json) : List Violation :=
  typeErrs "/updated_at" "string" j.isStr ++
  (match j with
   | .str s => if isDateTime s then [] else [("/updated_at", "must match format date-time")]
   | _ => [])

def vPricing (path : String) (j : Json) : List Violation :=
  match j with
  | .obj fields =>
    requiredErrs path fields ["model"] ++
    additionalErrs path fields ["model", "price_usd", "notes"] ++
    fields.flatMap fun kv =>
      if kv.1 = "model" then
        typeErrs (path ++ "/model") "string" kv.2.isStr ++
        enumErrs (path ++ "/model") kv.2 ["free", "per_call", "subscription"]
      else if kv.1 = "price_usd" then
        typeErrs (path ++ "/price_usd") "number" kv.2.isNum ++
        (match kv.2 with
         | .num q => if 0 ≤ q then [] else [(path ++ "/price_usd", "must be >= 0")]
         | _ => [])
      else if kv.1 = "notes" then typeErrs (path ++ "/notes") "string" kv.2.isStr
      else []
  | _ => [(path, "must be object")]

def toolRequiredKeys : List String :=
  ["name", "description", "version", "tags", "risk_level",
   "requires_user_confirm", "input_schema", "output_schema"]

def vTool (path : String) (j : Json) : List Violation :=
  match j with
  | .obj fields =>
    requiredErrs path fields toolRequiredKeys ++
    additionalErrs path fields (toolRequiredKeys ++ ["pricing"]) ++
    fields.flatMap fun kv =>
      if kv.1 = "name" then
        typeErrs (path ++ "/name") "string" kv.2.isStr ++
        (match kv.2 with
         | .str s => if toolNamePattern s then [] else [(path ++ "/name", "must match pattern")]
         | _ => [])
      else if kv.1 = "description" then strMinLenErrs (path ++ "/description") kv.2
      else if kv.1 = "version" then strMinLenErrs (path ++ "/version") kv.2
      else if kv.1 = "tags" then stringArrayErrs (path ++ "/tags") kv.2
      else if kv.1 = "risk_level" then
        typeErrs (path ++ "/risk_level") "string" kv.2.isStr ++
        enumErrs (path ++ "/risk_level") kv.2 ["low", "medium", "high"]
      else if kv.1 = "requires_user_confirm" then
        typeErrs (path ++ "/requires_user_confirm") "boolean" kv.2.isBool
      else if kv.1 = "input_schema" then
        typeErrs (path ++ "/input_schema") "object" kv.2.isObj
      else if kv.1 = "output_schema" then
        typeErrs (path ++ "/output_schema") "object" kv.2.isObj
      else if kv.1 = "pricing" then vPricing (path ++ "/pricing") kv.2
      else []
  | _ => [(path, "must be object")]

def vTools (j : Json) : List Violation :=
  typeErrs "/tools" "array" j.isArr ++
  (match j with
   | .arr elems =>
     (if 1 ≤ elems.length then [] else [("/tools", "must NOT have fewer than 1 items")]) ++
     elems.enum.flatMap fun ie => vTool ("/tools/" ++ toString ie.1) ie.2
   | _ => [])

def vAuth (j : Json) : List Violation :=
  match j with
  | .obj fields =>
    requiredErrs "/auth" fields ["requires_login"] ++
    additionalErrs "/auth" fields ["requires_login", "oauth_scopes"] ++
    fields.flatMap fun kv =>
      if kv.1 = "requires_login" then
        typeErrs "/auth/requires_login" "boolean" kv.2.isBool
      else if kv.1 = "oauth_scopes" then stringArrayErrs "/auth/oauth_scopes" kv.2
      else []
  | _ => [("/auth", "must be object")]

def attestationKeys : List String :=
  ["algo", "public_key_jwk", "signature", "signed_fields"]

def vAttestation (j : Json) : List Violation :=
  match j with
  | .obj fields =>
    requiredErrs "/attestation" fields attestationKeys ++
    additionalErrs "/attestation" fields attestationKeys ++
    fields.flatMap fun kv =>
      if kv.1 = "algo" then
        typeErrs "/attestation/algo" "string" kv.2.isStr ++
        enumErrs "/attestation/algo" kv.2 ["ed25519"]
      else if kv.1 = "public_key_jwk" then
        typeErrs "/attestation/public_key_jwk" "object" kv.2.isObj
      else if kv.1 = "signature" then
        typeErrs "/attestation/signature" "string" kv.2.isStr
      else if kv.1 = "signed_fields" then
        stringArrayErrs "/attestation/signed_fields" kv.2
      else []
  | _ => [("/attestation", "must be object")]

def rootRequiredKeys : List String :=
  ["manifest_version", "origin", "updated_at", "tools"]

def rootAllowedKeys : List String :=
  rootRequiredKeys ++ ["auth", "attestation"]

/-- `validate(manifest)` of the source: the full list of collected
violations; the manifest is valid exactly when the list is empty. -/
def validateManifest (j : Json) : List Violation :=
  match j with
  | .obj fields =>
    requiredErrs "" fields rootRequiredKeys ++
    additionalErrs "" fields rootAllowedKeys ++
    fields.flatMap fun kv =>
      if kv.1 = "manifest_version" then vManifestVersion kv.2
      else if kv.1 = "origin" then vOrigin kv.2
      else if kv.1 = "updated_at" then vUpdatedAt kv.2
      else if kv.1 = "tools" then vTools kv.2
      else if kv.1 = "auth" then vAuth kv.2
      else if kv.1 = "attestation" then vAttestation kv.2
      else []
  | _ => [("", "must be object")]

/-! ## The single-origin checker -/

/-- `Array.prototype.join(sep)` on a list of strings. -/
def joinSep (sep : String) : List String → String
  | [] => ""
  | [x] => x
  | x :: y :: xs => x ++ sep ++ joinSep sep (y :: xs)

/-- Render one ajv error as `checkUrl` does:
`${e.instancePath || "/"} ${e.message}`. -/
def renderViolation (v : Violation) : String :=
  (if v.1 = "" then "/" else v.1) ++ " " ++ v.2

/-- `m.manifest_version` of the validated manifest. -/
def manifestVersionOf (j : Json) : String :=
  match j.getField "manifest_version" with
  | some (.str s) => s
  | _ => ""

/-- `m.tools` of the validated manifest. -/
def toolsOf (j : Json) : List Json :=
  match j.getField "tools" with
  | some (.arr l) => l
  | _ => []

/-- `t.name` of a tool entry. -/
def toolNameOf (t : Json) : String :=
  match t.getField "name" with
  | some (.str s) => s
  | _ => ""

def wellKnownPath : String := "/.well-known/webmcp.json"

/-- `checkUrl` from the source.  The network is an oracle
`fetch : String → FetchResult` giving, for each URL, the outcome of the
`fetch` call (§4.2); `response.ok` is status 200–299. -/
def checkUrl (fetch : String → FetchResult) (input : String) : CheckResult :=
  match normalizeUrl input with
  | none =>
    { url := input, detected := false, valid := false, version := "",
      toolCount := 0, toolNames := "", error := "Invalid URL" }
  | some origin =>
    match fetch (origin ++ wellKnownPath) with
    | .networkError msg =>
      { url := origin, detected := false, valid := false, version := "",
        toolCount := 0, toolNames := "", error := msg }
    | .response status body =>
      if ¬(200 ≤ status ∧ status ≤ 299) then
        { url := origin, detected := false, valid := false, version := "",
          toolCount := 0, toolNames := "", error := "HTTP " ++ toString status }
      else
        match body with
        | none =>
          { url := origin, detected := false, valid := false, version := "",
            toolCount := 0, toolNames := "", error := "Invalid JSON" }
        | some manifest =>
          if validateManifest manifest = [] then
            { url := origin, detected := true, valid := true,
              version := manifestVersionOf manifest,
              toolCount := (toolsOf manifest).length,
              toolNames := joinSep "; " ((toolsOf manifest).map toolNameOf),
              error := "" }
          else
            { url := origin, detected := true, valid := false, version := "",
              toolCount := 0, toolNames := "",
              error := "Invalid manifest: " ++
                joinSep "; " ((validateManifest manifest).map renderViolation) }

/-! ## The batch runner -/

/-- `runBatch`'s accumulation loop: results are appended in input
order, and `detected` is incremented for each outcome with
`result.detected && result.valid`. -/
def runBatch (fetch : String → FetchResult) (urls : List String) :
    List CheckResult × Nat :=
  urls.foldl
    (fun acc url =>
      let result := checkUrl fetch url
      (acc.1 ++ [result],
       if result.detected && result.valid then acc.2 + 1 else acc.2))
    ([], 0)

/-! ## The CSV serializer -/

/-- `String(b)` for a boolean, as produced by `Array.prototype.join`. -/
def boolStr (b : Bool) : String := if b then "true" else "false"

/-- `value.replace(/"/g, "...")` doubling each quote character. -/
def doubleQuoteChar (c : Char) : List Char :=
  if c = '"' then ['"', '"'] else [c]

/-- `escapeCsvField` from the source (`value.includes` of a single
character is a character-membership test). -/
def escapeCsvField (value : String) : String :=
  if value.data.contains ',' || value.data.contains '"' || value.data.contains '\n' then
    "\"" ++ String.mk (value.data.flatMap doubleQuoteChar) ++ "\""
  else value

/-- One data row of `resultsToCsv`: the seven fields joined by `,`
(booleans and the number are coerced by `join`). -/
def csvRow (r : CheckResult) : String :=
  joinSep ","
    [escapeCsvField r.url, boolStr r.detected, boolStr r.valid,
     escapeCsvField r.version, toString r.toolCount,
     escapeCsvField r.toolNames, escapeCsvField r.error]

def csvHeader : String := "url,detected,valid,version,tool_count,tool_names,error"

/-- `resultsToCsv` from the source:
`[header, ...rows].join("\n") + "\n"`. -/
def resultsToCsv (results : List CheckResult) : String :=
  joinSep "\n" (csvHeader :: results.map csvRow) ++ "\n"

/-! ## The CSV input parser -/

/-- `"` or `'` (the `/^["']|["']$/g` character class). -/
def isQuoteChar (c : Char) : Bool := c.toNat = 34 || c.toNat = 39

/-- `col.replace(/^["']|["']$/g, "")`: drop one leading and one
trailing quote character. -/
def stripSurroundingQuotes (cs : List Char) : List Char :=
  let front :=
    match cs with
    | c :: t => if isQuoteChar c then t else c :: t
    | [] => []
  match front.getLast? with
  | some c => if isQuoteChar c then front.dropLast else front
  | none => []

/-- `line.split(",")[0]`: the characters before the first comma (the
whole line when there is none). -/
def firstColumn (line : String) : String :=
  ⟨line.data.takeWhile (fun c => c ≠ ',')⟩

/-- `content.split(/\r?\n/)`: split at each `\n`, each piece losing
the `\r` of a preceding `\r\n`. -/
def csvSplitLines (content : String) : List String :=
  (splitOnPred (fun c => c = '\n') content.data).map fun l =>
    ⟨if l.getLast? = some '\r' then l.dropLast else l⟩

/-- `lines.filter(line => line.trim())`: the non-blank lines. -/
def nonBlankLines (content : String) : List String :=
  (csvSplitLines content).filter (fun l => jsTrim l != "")

/-- Is the (lowercased, trimmed) first line one of the three header
words? -/
def isHeaderWord (w : String) : Bool :=
  w = "url" || w = "domain" || w = "website"

/-- The per-line origin extraction of `parseCsvUrls`:
`line.split(",")[0].trim()` with one surrounding quote pair stripped. -/
def extractOrigin (line : String) : String :=
  ⟨stripSurroundingQuotes (jsTrim (firstColumn line)).data⟩

/-- `parseCsvUrls` from the source, on the file's content (reading the
file from disk is the external collaborator's concern).  Note the
header test compares the whole first non-blank line, lowercased and
trimmed, against `url` / `domain` / `website`. -/
def parseCsvUrls (content : String) : List String :=
  let lines := nonBlankLines content
  let first := jsTrim (jsToLower (lines.headD ""))
  (lines.drop (if isHeaderWord first then 1 else 0)).map extractOrigin

/-- The tabular-input rule as §6 of the spec words it, for comparison
with `parseCsvUrls`: the header is decided by the first non-blank
line's *first column* (case-insensitively trimmed), and each remaining
line contributes its first column with surrounding quotes stripped
(and, per the spec's words, not trimmed). -/
def parseCsvUrlsSpec (content : String) : List String :=
  let lines := nonBlankLines content
  let first := jsTrim (jsToLower (firstColumn (lines.headD "")))
  (lines.drop (if isHeaderWord first then 1 else 0)).map fun line =>
    ⟨stripSurroundingQuotes (firstColumn line).data⟩

/-! ## Shared helper lemmas and example data -/

/-- A fully conformant tool object with the given name. -/
def exTool (n : String) : Json :=
  .obj [("name", .str n), ("description", .str "d"), ("version", .str "1.0"),
        ("tags", .arr []), ("risk_level", .str "low"),
        ("requires_user_confirm", .bool false),
        ("input_schema", .obj []), ("output_schema", .obj [])]

/-- The spec's example manifest: three tools named `search_products`,
`get_order`, `create_return`. -/
def exManifest : Json :=
  .obj [("manifest_version", .str "0.1"),
        ("origin", .str "https://example.com"),
        ("updated_at", .str "2025-01-01T00:00:00Z"),
        ("tools", .arr [exTool "search_products", exTool "get_order",
                        exTool "create_return"])]

/-- In every branch of `checkUrl`, `detected && valid` equals `valid`. -/
theorem checkUrl_detected_and_valid (fetch : String → FetchResult) (url : String) :
    ((checkUrl fetch url).detected && (checkUrl fetch url).valid) =
      (checkUrl fetch url).valid := by
  unfold checkUrl
  repeat' split
  all_goals rfl

/-! ## C1 -/

/-- C1: for every parsed JSON document that conforms to the manifest
schema of §3, the Checker's outcome has `detected = true`,
`valid = true`, `version` equal to the document's `manifest_version`
field, `toolCount` equal to the length of the document's `tools` array,
`toolNames` equal to the tools' `name` fields joined in order by the
two-character separator `"; "`, and `error` equal to the empty
string. -/
theorem C1_valid_manifest_outcome (fetch : String → FetchResult)
    (input o : String) (status : Nat) (m : Json)
    (hnorm : normalizeUrl input = some o)
    (hfetch : fetch (o ++ wellKnownPath) = .response status (some m))
    (hok : 200 ≤ status ∧ status ≤ 299)
    (hvalid : validateManifest m = []) :
    checkUrl fetch input =
      { url := o, detected := true, valid := true,
        version := manifestVersionOf m,
        toolCount := (toolsOf m).length,
        toolNames := joinSep "; " ((toolsOf m).map toolNameOf),
        error := "" } := by
  unfold checkUrl
  simp only [hnorm, hfetch]
  rw [if_neg (not_not_intro hok)]
  simp only [hvalid]
  simp

def exFetchValid : String → FetchResult :=
  fun _ => .response 200 (some exManifest)

/-- C1 witness: the spec's three-tool example manifest yields
`valid = true`, `toolCount = 3`,
`toolNames = "search_products; get_order; create_return"`. -/
theorem C1_valid_manifest_outcome_witness :
    checkUrl exFetchValid "example.com" =
      { url := "https://example.com", detected := true, valid := true,
        version := "0.1", toolCount := 3,
        toolNames := "search_products; get_order; create_return",
        error := "" } := by
  rw [C1_valid_manifest_outcome exFetchValid "example.com" "https://example.com"
        200 exManifest (by decide) rfl (by decide) (by decide)]
  decide

/-! ## C2 -/

/-- C2: every `CheckResult` produced by `checkUrl` satisfies:
`valid = true` implies `detected = true`; `version`, `toolCount` and
`toolNames` are empty/zero unless `valid = true`; and `error` is the
empty string when `valid = true`. -/
theorem C2_outcome_invariants (fetch : String → FetchResult) (input : String) :
    ((checkUrl fetch input).valid = true → (checkUrl fetch input).detected = true) ∧
    ((checkUrl fetch input).valid = false →
       (checkUrl fetch input).version = "" ∧
       (checkUrl fetch input).toolCount = 0 ∧
       (checkUrl fetch input).toolNames = "") ∧
    ((checkUrl fetch input).valid = true → (checkUrl fetch input).error = "") := by
  unfold checkUrl
  repeat' split
  all_goals first | rfl | simp

/-- C2 witness: the invariants at a concrete oracle and input. -/
theorem C2_outcome_invariants_witness :
    ((checkUrl exFetchValid "example.com").valid = true →
       (checkUrl exFetchValid "example.com").detected = true) ∧
    ((checkUrl exFetchValid "example.com").valid = false →
       (checkUrl exFetchValid "example.com").version = "" ∧
       (checkUrl exFetchValid "example.com").toolCount = 0 ∧
       (checkUrl exFetchValid "example.com").toolNames = "") ∧
    ((checkUrl exFetchValid "example.com").valid = true →
       (checkUrl exFetchValid "example.com").error = "") :=
  C2_outcome_invariants exFetchValid "example.com"

/-! ## C3 -/

/-- C3: whenever normalization fails, `checkUrl` returns
`detected = false`, `valid = false`, `error = "Invalid URL"` and `url`
equal to the raw input; the failure is absorbed into the outcome, not
propagated. -/
theorem C3_invalid_url_outcome (fetch : String → FetchResult) (input : String)
    (h : normalizeUrl input = none) :
    checkUrl fetch input =
      { url := input, detected := false, valid := false, version := "",
        toolCount := 0, toolNames := "", error := "Invalid URL" } := by
  unfold checkUrl
  simp only [h]

def exFetchUnused : String → FetchResult := fun _ => .networkError "unused"

/-- C3 witness: the spec's malformed examples, the empty string and
`"http://"`, both fail normalization and map to the `Invalid URL`
outcome. -/
theorem C3_invalid_url_outcome_witness :
    checkUrl exFetchUnused "" =
      { url := "", detected := false, valid := false, version := "",
        toolCount := 0, toolNames := "", error := "Invalid URL" } ∧
    checkUrl exFetchUnused "http://" =
      { url := "http://", detected := false, valid := false, version := "",
        toolCount := 0, toolNames := "", error := "Invalid URL" } :=
  ⟨C3_invalid_url_outcome exFetchUnused "" (by decide),
   C3_invalid_url_outcome exFetchUnused "http://" (by decide)⟩

/-! ## C4 -/

/-- C4: after successful normalization, a non-2xx response yields
`detected = false`, `valid = false`, `error = "HTTP <status>"` without
the body being consulted (the outcome is the same for every `body`),
and a 2xx response whose body is not parseable as JSON yields
`detected = false`, `valid = false`, `error = "Invalid JSON"`. -/
theorem C4_http_and_json_errors (fetch : String → FetchResult)
    (input o : String) (status : Nat) (body : Option Json)
    (hnorm : normalizeUrl input = some o)
    (hfetch : fetch (o ++ wellKnownPath) = .response status body) :
    (¬(200 ≤ status ∧ status ≤ 299) →
       checkUrl fetch input =
         { url := o, detected := false, valid := false, version := "",
           toolCount := 0, toolNames := "",
           error := "HTTP " ++ toString status }) ∧
    ((200 ≤ status ∧ status ≤ 299) → body = none →
       checkUrl fetch input =
         { url := o, detected := false, valid := false, version := "",
           toolCount := 0, toolNames := "", error := "Invalid JSON" }) := by
  constructor
  · intro hbad
    unfold checkUrl
    simp only [hnorm, hfetch]
    rw [if_pos hbad]
  · intro hok hbody
    unfold checkUrl
    simp only [hnorm, hfetch, hbody]
    rw [if_neg (not_not_intro hok)]

def exFetch404 : String → FetchResult := fun _ => .response 404 none
def exFetchBadJson : String → FetchResult := fun _ => .response 200 none

/-- C4 witness: a 404 response yields `error = "HTTP 404"`, and a 200
response with an unparseable body yields `error = "Invalid JSON"`. -/
theorem C4_http_and_json_errors_witness :
    checkUrl exFetch404 "example.com" =
      { url := "https://example.com", detected := false, valid := false,
        version := "", toolCount := 0, toolNames := "",
        error := "HTTP 404" } ∧
    checkUrl exFetchBadJson "example.com" =
      { url := "https://example.com", detected := false, valid := false,
        version := "", toolCount := 0, toolNames := "",
        error := "Invalid JSON" } := by
  constructor
  · rw [(C4_http_and_json_errors exFetch404 "example.com" "https://example.com"
          404 none (by decide) rfl).1 (by decide)]
    decide
  · rw [(C4_http_and_json_errors exFetchBadJson "example.com" "https://example.com"
          200 none (by decide) rfl).2 (by decide) rfl]

/-! ## C5 -/

/-- C5: a fetched and parsed document that fails schema validation
yields `detected = true`, `valid = false` and `error` equal to
`"Invalid manifest: "` followed by all collected violations, rendered
and joined with `"; "`. -/
theorem C5_invalid_manifest_outcome (fetch : String → FetchResult)
    (input o : String) (status : Nat) (m : Json)
    (hnorm : normalizeUrl input = some o)
    (hfetch : fetch (o ++ wellKnownPath) = .response status (some m))
    (hok : 200 ≤ status ∧ status ≤ 299)
    (hinv : validateManifest m ≠ []) :
    checkUrl fetch input =
      { url := o, detected := true, valid := false, version := "",
        toolCount := 0, toolNames := "",
        error := "Invalid manifest: " ++
          joinSep "; " ((validateManifest m).map renderViolation) } := by
  unfold checkUrl
  simp only [hnorm, hfetch]
  rw [if_neg (not_not_intro hok), if_neg hinv]

def exFetchEmptyObj : String → FetchResult :=
  fun _ => .response 200 (some (.obj []))

set_option maxRecDepth 4000 in
/-- C5 witness: an empty JSON object is missing all four required root
fields; the four violations are joined with `"; "` after the
`"Invalid manifest: "` prefix. -/
theorem C5_invalid_manifest_outcome_witness :
    checkUrl exFetchEmptyObj "example.com" =
      { url := "https://example.com", detected := true, valid := false,
        version := "", toolCount := 0, toolNames := "",
        error := "Invalid manifest: / must have required property manifest_version; / must have required property origin; / must have required property updated_at; / must have required property tools" } := by
  rw [C5_invalid_manifest_outcome exFetchEmptyObj "example.com"
        "https://example.com" 200 (.obj []) (by decide) rfl (by decide) (by decide)]
  decide

/-! ## C7 -/

/-- The accumulation of `runBatch`'s loop, generalized over the
accumulator. -/
theorem runBatch_foldl (fetch : String → FetchResult) :
    ∀ (urls : List String) (rs : List CheckResult) (n : Nat),
      urls.foldl
        (fun acc url =>
          let result := checkUrl fetch url
          (acc.1 ++ [result],
           if result.detected && result.valid then acc.2 + 1 else acc.2))
        (rs, n) =
      (rs ++ urls.map (checkUrl fetch),
       n + ((urls.map (checkUrl fetch)).filter (fun r => r.valid)).length) := by
  intro urls
  induction urls with
  | nil => intro rs n; simp
  | cons u us ih =>
    intro rs n
    simp only [List.foldl_cons, List.map_cons, List.filter_cons]
    rw [ih]
    rw [checkUrl_detected_and_valid]
    by_cases h : (checkUrl fetch u).valid
    · simp [h, List.append_assoc]
      omega
    · simp [h, List.append_assoc]

/-- C7: the batch runner produces one outcome per input, in input
order, the i-th outcome being the Checker's result on the i-th input,
and its aggregate count equals the number of outcomes with
`valid = true`. -/
theorem C7_batch_order_and_count (fetch : String → FetchResult)
    (urls : List String) :
    (runBatch fetch urls).1 = urls.map (checkUrl fetch) ∧
    (runBatch fetch urls).1.length = urls.length ∧
    (runBatch fetch urls).2 =
      ((runBatch fetch urls).1.filter (fun r => r.valid)).length := by
  unfold runBatch
  rw [runBatch_foldl]
  simp

/-! ## C8 -/

/-- The block of data rows: each row followed by exactly one `"\n"`. -/
def rowsBlock (rows : List String) : String :=
  rows.foldr (fun r acc => r ++ "\n" ++ acc) ""

/-- `escapeCsvField` never yields a string whose last character is a
newline: either the value is wrapped in quotes, or it contained no
newline at all. -/
theorem escapeCsvField_getLast?_ne_newline (v : String) :
    (escapeCsvField v).data.getLast? ≠ some '\n' := by
  unfold escapeCsvField
  split
  · intro h
    rw [show ("\"" ++ String.mk (v.data.flatMap doubleQuoteChar) ++ "\"" :
            String).data
          = ('"' :: v.data.flatMap doubleQuoteChar) ++ ['"'] from rfl,
        List.getLast?_concat] at h
    exact absurd h (by decide)
  · next hcond =>
    intro h
    have hmem : '\n' ∈ v.data := List.mem_of_mem_getLast? h
    simp [hmem] at hcond

/-- A data row is nonempty and never ends in a newline (its last
character is the last character of the escaped `error` field, or the
final `,` when that field is empty). -/
theorem getLast?_append_ne_newline {l1 l2 : List Char}
    (h1 : l1.getLast? ≠ some '\n') (h2 : l2.getLast? ≠ some '\n') :
    (l1 ++ l2).getLast? ≠ some '\n' := by
  rw [List.getLast?_append]
  cases hl : l2.getLast? with
  | none => simpa using h1
  | some c => rw [hl] at h2; simpa using h2

theorem getLast?_append_of_ne_nil {α : Type} {l1 l2 : List α} (h : l2 ≠ []) :
    (l1 ++ l2).getLast? = l2.getLast? := by
  rw [List.getLast?_append]
  cases hl : l2.getLast? with
  | none => rw [List.getLast?_eq_none_iff] at hl; exact absurd hl h
  | some c => rfl

theorem csvRow_data_facts (r : CheckResult) :
    (csvRow r).data ≠ [] ∧ (csvRow r).data.getLast? ≠ some '\n' := by
  have herr := escapeCsvField_getLast?_ne_newline r.error
  have hsplit : csvRow r =
      (escapeCsvField r.url ++ "," ++ boolStr r.detected ++ "," ++
       boolStr r.valid ++ "," ++ escapeCsvField r.version ++ "," ++
       toString r.toolCount ++ "," ++ escapeCsvField r.toolNames ++ ",") ++
      escapeCsvField r.error := by
    simp [csvRow, joinSep, String.append_assoc]
  rw [hsplit, String.data_append]
  constructor
  · intro hnil
    rcases List.append_eq_nil.mp hnil with ⟨h1, -⟩
    rw [String.data_append] at h1
    rcases List.append_eq_nil.mp h1 with ⟨-, h2⟩
    exact absurd h2 (by decide)
  · refine getLast?_append_ne_newline ?_ herr
    rw [String.data_append,
        show ("," : String).data = [','] from rfl, List.getLast?_concat]
    decide

/-- Peeling the header off a newline join: the serializer's shape. -/
theorem joinSep_nl_shape :
    ∀ (t : List String) (h : String),
      joinSep "\n" (h :: t) ++ "\n" = h ++ "\n" ++ rowsBlock t := by
  intro t
  induction t with
  | nil =>
    intro h
    show joinSep "\n" [h] ++ "\n" = (h ++ "\n") ++ rowsBlock []
    rw [show rowsBlock [] = "" from rfl, String.append_empty]
    rfl
  | cons x xs ih =>
    intro h
    show ((h ++ "\n") ++ joinSep "\n" (x :: xs)) ++ "\n" =
      h ++ "\n" ++ rowsBlock (x :: xs)
    rw [String.append_assoc, ih x]
    rfl

/-- A newline join of nonempty strings none of which ends in a newline
is nonempty and does not end in a newline. -/
theorem joinSep_nl_getLast? :
    ∀ (t : List String) (h : String),
      h.data ≠ [] → h.data.getLast? ≠ some '\n' →
      (∀ x ∈ t, x.data ≠ [] ∧ x.data.getLast? ≠ some '\n') →
      (joinSep "\n" (h :: t)).data ≠ [] ∧
        (joinSep "\n" (h :: t)).data.getLast? ≠ some '\n' := by
  intro t
  induction t with
  | nil => intro h h1 h2 _; exact ⟨h1, h2⟩
  | cons x xs ih =>
    intro h h1 h2 hall
    have hx := hall x (by simp)
    have hrest := ih x hx.1 hx.2 (fun y hy => hall y (by simp [hy]))
    have hshape : joinSep "\n" (h :: x :: xs) =
        (h ++ "\n") ++ joinSep "\n" (x :: xs) := rfl
    rw [hshape, String.data_append]
    constructor
    · intro hnil
      rcases List.append_eq_nil.mp hnil with ⟨hh, -⟩
      rw [String.data_append] at hh
      rcases List.append_eq_nil.mp hh with ⟨-, hq⟩
      exact absurd hq (by decide)
    · rw [getLast?_append_of_ne_nil hrest.1]
      exact hrest.2

/-- C8: the serializer emits the fixed header line followed by one row
per outcome, fields in the documented order; a field containing a
comma, quote or newline is wrapped in quotes with internal quotes
doubled and is otherwise emitted verbatim; booleans render as
`true`/`false`; and the output ends with exactly one trailing line
break after the last row (the last character is a newline and the one
before it is not). -/
theorem C8_csv_serialization (rs : List CheckResult) :
    resultsToCsv rs =
      "url,detected,valid,version,tool_count,tool_names,error" ++ "\n" ++
        rowsBlock (rs.map csvRow) ∧
    (∀ r : CheckResult, csvRow r =
       joinSep ","
         [escapeCsvField r.url, boolStr r.detected, boolStr r.valid,
          escapeCsvField r.version, toString r.toolCount,
          escapeCsvField r.toolNames, escapeCsvField r.error]) ∧
    (∀ v : String,
       (v.data.contains ',' || v.data.contains '"' || v.data.contains '\n') = true →
       escapeCsvField v = "\"" ++ String.mk (v.data.flatMap doubleQuoteChar) ++ "\"") ∧
    (∀ v : String,
       (v.data.contains ',' || v.data.contains '"' || v.data.contains '\n') = false →
       escapeCsvField v = v) ∧
    (boolStr true = "true" ∧ boolStr false = "false") ∧
    (resultsToCsv rs).data.getLast? = some '\n' ∧
    (resultsToCsv rs).data.dropLast.getLast? ≠ some '\n' := by
  have hlast :
      (joinSep "\n" (csvHeader :: rs.map csvRow)).data ≠ [] ∧
      (joinSep "\n" (csvHeader :: rs.map csvRow)).data.getLast? ≠ some '\n' := by
    refine joinSep_nl_getLast? (rs.map csvRow) csvHeader (by decide) (by decide) ?_
    intro x hx
    rcases List.mem_map.mp hx with ⟨r, _, rfl⟩
    exact csvRow_data_facts r
  refine ⟨?_, fun r => rfl, ?_, ?_, ⟨rfl, rfl⟩, ?_, ?_⟩
  · unfold resultsToCsv
    rw [joinSep_nl_shape]
    rfl
  · intro v hv
    unfold escapeCsvField
    rw [if_pos hv]
  · intro v hv
    have hne : ¬((v.data.contains ',' || v.data.contains '"' ||
        v.data.contains '\n') = true) := by
      rw [hv]; exact Bool.false_ne_true
    unfold escapeCsvField
    rw [if_neg hne]
  · unfold resultsToCsv
    rw [String.data_append,
        show ("\n" : String).data = ['\n'] from rfl, List.getLast?_concat]
  · unfold resultsToCsv
    have hd : (joinSep "\n" (csvHeader :: rs.map csvRow) ++ "\n").data =
        (joinSep "\n" (csvHeader :: rs.map csvRow)).data ++ ['\n'] := rfl
    rw [hd, List.dropLast_concat]
    exact hlast.2

/-- C8 witness: a concrete outcome serializes to the documented header
plus one newline-terminated row. -/
theorem C8_csv_serialization_witness :
    resultsToCsv
      [{ url := "https://example.com", detected := true, valid := true,
         version := "0.1", toolCount := 3,
         toolNames := "search_products; get_order; create_return",
         error := "" }] =
    "url,detected,valid,version,tool_count,tool_names,error\nhttps://example.com,true,true,0.1,3,search_products; get_order; create_return,\n" := by
  rw [(C8_csv_serialization _).1]
  decide

/-! ## C9 -/

/-- C9 counterexample: on the input whose first non-blank line is
`url,name`, the claim's rule (header decided by the first *column*,
columns not trimmed) yields `[" example.com "]`, but `parseCsvUrls`
does not skip that line (its first column is `url`, yet the whole line
is not) and trims the extracted column, yielding
`["url", "example.com"]`. -/
theorem C9_counterexample :
    parseCsvUrls "url,name\n example.com " = ["url", "example.com"] ∧
    parseCsvUrlsSpec "url,name\n example.com " = [" example.com "] ∧
    parseCsvUrls "url,name\n example.com " ≠
      parseCsvUrlsSpec "url,name\n example.com " := by
  refine ⟨?_, ?_, ?_⟩ <;> decide

/-- C9 (amended): the input parser skips the first non-blank line
exactly when that *entire line*, case-insensitively trimmed, equals
`url`, `domain` or `website`; every remaining line contributes its
first column, trimmed, with surrounding quotes stripped. -/
theorem C9_amended_header_rule (content : String) :
    (isHeaderWord (jsTrim (jsToLower ((nonBlankLines content).headD ""))) = true →
       parseCsvUrls content = ((nonBlankLines content).drop 1).map extractOrigin) ∧
    (isHeaderWord (jsTrim (jsToLower ((nonBlankLines content).headD ""))) = false →
       parseCsvUrls content = (nonBlankLines content).map extractOrigin) ∧
    (∀ line : String, extractOrigin line =
       ⟨stripSurroundingQuotes (jsTrim (firstColumn line)).data⟩) := by
  refine ⟨?_, ?_, fun line => rfl⟩
  · intro h
    unfold parseCsvUrls
    dsimp only
    rw [h]
    simp
  · intro h
    unfold parseCsvUrls
    dsimp only
    rw [h]
    simp

/-- C9 witness: the amended rule applied to a concrete input with a
header line and to one without. -/
theorem C9_amended_header_rule_witness :
    parseCsvUrls "url\nexample.com" =
      ((nonBlankLines "url\nexample.com").drop 1).map extractOrigin ∧
    parseCsvUrls "url,name\nexample.com" =
      (nonBlankLines "url,name\nexample.com").map extractOrigin :=
  ⟨(C9_amended_header_rule "url\nexample.com").1 (by decide),
   (C9_amended_header_rule "url,name\nexample.com").2.1 (by decide)⟩

/-! ## C6 -/

/-- C6: the Normalizer trims surrounding whitespace, prepends
`https://` exactly when the trimmed string does not already begin with
`http://` or `https://` case-insensitively, and returns only the
origin component of the parsed URL (scheme + host + non-default port;
path and query discarded); in particular
`normalize("example.com") = "https://example.com"` and
`normalize(" HTTP://Example.com/path ") = "http://example.com"`. -/
theorem C6_normalizer (input : String) :
    (hasHttpScheme (jsTrimChars input.data) = true →
       normalizeUrl input =
         (parseHttpUrl (jsTrimChars input.data)).map
           (fun u => ⟨originChars u⟩)) ∧
    (hasHttpScheme (jsTrimChars input.data) = false →
       normalizeUrl input =
         (parseHttpUrl ("https://".data ++ jsTrimChars input.data)).map
           (fun u => ⟨originChars u⟩)) ∧
    normalizeUrl "example.com" = some "https://example.com" ∧
    normalizeUrl " HTTP://Example.com/path " = some "http://example.com" ∧
    normalizeUrl "example.com:8080/x?q=1" = some "https://example.com:8080" ∧
    normalizeUrl "https://example.com:443/a?b" = some "https://example.com" := by
  refine ⟨?_, ?_, by decide, by decide, by decide, by decide⟩
  · intro h
    unfold normalizeUrl
    dsimp only
    rw [h]
    simp
  · intro h
    unfold normalizeUrl
    dsimp only
    rw [h]
    simp

/-- C6 witness: both branches of the scheme test at concrete inputs. -/
theorem C6_normalizer_witness :
    normalizeUrl " HTTP://Example.com/path " =
      (parseHttpUrl (jsTrimChars " HTTP://Example.com/path ".data)).map
        (fun u => ⟨originChars u⟩) ∧
    normalizeUrl "example.com" =
      (parseHttpUrl ("https://".data ++ jsTrimChars "example.com".data)).map
        (fun u => ⟨originChars u⟩) :=
  ⟨(C6_normalizer " HTTP://Example.com/path ").1 (by decide),
   (C6_normalizer "example.com").2.1 (by decide)⟩

/-! ## C10: idempotence of the Normalizer

Character-level toolkit. -/

theorem char_eq_iff_toNat {c d : Char} : c = d ↔ c.toNat = d.toNat := by
  constructor
  · intro h; rw [h]
  · intro h
    rw [← Char.ofNat_toNat c, ← Char.ofNat_toNat d, h]

theorem ne_of_toNat_ne {c d : Char} (h : c.toNat ≠ d.toNat) : c ≠ d :=
  fun he => h (by rw [he])

theorem charOfNat_toNat_lower (m : Nat) (h1 : 97 ≤ m) (h2 : m ≤ 122) :
    (Char.ofNat m).toNat = m := by
  interval_cases m <;> decide

theorem toLower_eq_self {c : Char} (h : ¬(65 ≤ c.toNat ∧ c.toNat ≤ 90)) :
    Char.toLower c = c := by
  unfold Char.toLower
  exact if_neg h

theorem toLower_toNat_of_upper {c : Char} (h : 65 ≤ c.toNat ∧ c.toNat ≤ 90) :
    (Char.toLower c).toNat = c.toNat + 32 := by
  unfold Char.toLower
  rw [if_pos h]
  exact charOfNat_toNat_lower _ (by omega) (by omega)

theorem toLower_toNat_cases (c : Char) :
    (65 ≤ c.toNat ∧ c.toNat ≤ 90 ∧ (Char.toLower c).toNat = c.toNat + 32) ∨
    (¬(65 ≤ c.toNat ∧ c.toNat ≤ 90) ∧ Char.toLower c = c) := by
  by_cases h : 65 ≤ c.toNat ∧ c.toNat ≤ 90
  · exact Or.inl ⟨h.1, h.2, toLower_toNat_of_upper h⟩
  · exact Or.inr ⟨h, toLower_eq_self h⟩

theorem toLower_idem (c : Char) :
    Char.toLower (Char.toLower c) = Char.toLower c := by
  rcases toLower_toNat_cases c with ⟨h1, h2, h3⟩ | ⟨h1, h2⟩
  · exact toLower_eq_self (by omega)
  · rw [h2, h2]

theorem forbidden_false_facts {c : Char} (h : forbiddenHostChar c = false) :
    c.toNat ≠ 0 ∧ c.toNat ≠ 9 ∧ c.toNat ≠ 10 ∧ c.toNat ≠ 13 ∧ c.toNat ≠ 32 ∧
    c.toNat ≠ 35 ∧ c.toNat ≠ 47 ∧ c.toNat ≠ 58 ∧ c.toNat ≠ 60 ∧ c.toNat ≠ 62 ∧
    c.toNat ≠ 63 ∧ c.toNat ≠ 64 ∧ c.toNat ≠ 91 ∧ c.toNat ≠ 92 ∧ c.toNat ≠ 93 ∧
    c.toNat ≠ 94 ∧ c.toNat ≠ 124 := by
  simp [forbiddenHostChar] at h
  omega

theorem forbidden_false_of_facts {c : Char}
    (h : c.toNat ≠ 0 ∧ c.toNat ≠ 9 ∧ c.toNat ≠ 10 ∧ c.toNat ≠ 13 ∧ c.toNat ≠ 32 ∧
      c.toNat ≠ 35 ∧ c.toNat ≠ 47 ∧ c.toNat ≠ 58 ∧ c.toNat ≠ 60 ∧ c.toNat ≠ 62 ∧
      c.toNat ≠ 63 ∧ c.toNat ≠ 64 ∧ c.toNat ≠ 91 ∧ c.toNat ≠ 92 ∧ c.toNat ≠ 93 ∧
      c.toNat ≠ 94 ∧ c.toNat ≠ 124) :
    forbiddenHostChar c = false := by
  simp [forbiddenHostChar]
  omega

theorem toLower_not_forbidden {c : Char} (h : forbiddenHostChar c = false) :
    forbiddenHostChar (Char.toLower c) = false := by
  have hf := forbidden_false_facts h
  rcases toLower_toNat_cases c with ⟨h1, h2, h3⟩ | ⟨h1, h2⟩
  · exact forbidden_false_of_facts (by rw [h3]; omega)
  · rw [h2]; exact h

theorem isDigitChar_toNat {c : Char} (h : isDigitChar c = true) :
    48 ≤ c.toNat ∧ c.toNat ≤ 57 := by
  simpa [isDigitChar] using h

theorem isWhitespace_eq_false {c : Char}
    (h9 : c.toNat ≠ 9) (h10 : c.toNat ≠ 10) (h13 : c.toNat ≠ 13)
    (h32 : c.toNat ≠ 32) :
    c.isWhitespace = false := by
  have hs : c ≠ ' ' := fun h => h32 (by subst h; rfl)
  have ht : c ≠ '\t' := fun h => h9 (by subst h; rfl)
  have hr : c ≠ '\r' := fun h => h13 (by subst h; rfl)
  have hn : c ≠ '\n' := fun h => h10 (by subst h; rfl)
  simp [Char.isWhitespace, hs, ht, hr, hn]

/-! List-level toolkit. -/

theorem takeWhile_eq_self_of_all {α : Type} {p : α → Bool} :
    ∀ (l : List α), (∀ a ∈ l, p a = true) → l.takeWhile p = l := by
  intro l
  induction l with
  | nil => intro _; rfl
  | cons a t ih =>
    intro h
    rw [List.takeWhile_cons_of_pos (h a (by simp)), ih (fun b hb => h b (by simp [hb]))]

theorem dropWhile_eq_self_of_all {α : Type} {p : α → Bool} :
    ∀ (l : List α), (∀ a ∈ l, p a = false) → l.dropWhile p = l := by
  intro l
  induction l with
  | nil => intro _; rfl
  | cons a t ih =>
    intro h
    exact List.dropWhile_cons_of_neg (by simp [h a (by simp)])

theorem jsTrimChars_eq_self {l : List Char}
    (h : ∀ c ∈ l, c.isWhitespace = false) : jsTrimChars l = l := by
  unfold jsTrimChars
  rw [dropWhile_eq_self_of_all l h,
      dropWhile_eq_self_of_all l.reverse (fun c hc => h c (List.mem_reverse.mp hc)),
      List.reverse_reverse]

/-! Port canonicalization. -/

theorem dropWhile_idem {α : Type} {p : α → Bool} :
    ∀ (l : List α), (l.dropWhile p).dropWhile p = l.dropWhile p := by
  intro l
  induction l with
  | nil => rfl
  | cons a t ih =>
    by_cases h : p a
    · rw [List.dropWhile_cons_of_pos h]; exact ih
    · rw [List.dropWhile_cons_of_neg h, List.dropWhile_cons_of_neg h]

theorem portValue_cons_zero (t : List Char) :
    portValue ('0' :: t) = portValue t := rfl

theorem portValue_dropWhile_zero :
    ∀ (l : List Char),
      portValue (l.dropWhile (fun c => c = '0')) = portValue l := by
  intro l
  induction l with
  | nil => rfl
  | cons a t ih =>
    by_cases h : a = '0'
    · subst h
      rw [List.dropWhile_cons_of_pos (by simp), ih, portValue_cons_zero]
    · rw [List.dropWhile_cons_of_neg (by simp [h])]

theorem canonPort_eq (l : List Char) :
    canonPort l =
      if (l.dropWhile (fun c => c = '0')).isEmpty then ['0']
      else l.dropWhile (fun c => c = '0') := rfl

theorem canonPort_idem (l : List Char) :
    canonPort (canonPort l) = canonPort l := by
  rw [canonPort_eq l]
  by_cases h : (l.dropWhile (fun c => c = '0')).isEmpty
  · rw [if_pos h]; decide
  · rw [if_neg h, canonPort_eq, dropWhile_idem, if_neg h]

theorem canonPort_ne_nil (l : List Char) : canonPort l ≠ [] := by
  rw [canonPort_eq]
  split
  · simp
  · next h => simpa using h

theorem canonPort_value (l : List Char) :
    portValue (canonPort l) = portValue l := by
  rw [canonPort_eq]
  split
  · next h =>
    have h0 : l.dropWhile (fun c => c = '0') = [] := by simpa using h
    have hv := portValue_dropWhile_zero l
    rw [h0] at hv
    rw [← hv]
    decide
  · exact portValue_dropWhile_zero l

theorem canonPort_digits {l : List Char} (h : ∀ c ∈ l, isDigitChar c = true) :
    ∀ c ∈ canonPort l, isDigitChar c = true := by
  rw [canonPort_eq]
  split
  · intro c hc
    simp at hc
    subst hc
    decide
  · intro c hc
    exact h c (List.dropWhile_subset _ hc)

/-! Inversion of the URL parser: what a successful parse guarantees
about the resulting components. -/

theorem schemeAndRest_inv {cs scheme rest : List Char}
    (h : schemeAndRest cs = some (scheme, rest)) :
    scheme = "https".data ∨ scheme = "http".data := by
  unfold schemeAndRest at h
  split at h
  · cases h; exact Or.inl rfl
  · split at h
    · cases h; exact Or.inr rfl
    · cases h

theorem parseHostPort_inv {scheme hp : List Char} {u : ParsedURL}
    (h : parseHostPort scheme hp = some u) :
    u.scheme = scheme ∧
    u.host ≠ [] ∧
    (∀ c ∈ u.host, forbiddenHostChar c = false ∧ Char.toLower c = c) ∧
    (∀ p, u.port = some p →
       p ≠ [] ∧ (∀ c ∈ p, isDigitChar c = true) ∧ canonPort p = p ∧
       portValue p ≤ 65535 ∧ portValue p ≠ defaultPortValue scheme) := by
  unfold parseHostPort at h
  dsimp only at h
  split at h
  · cases h
  · split at h
    · cases h
    · next hne hforb =>
      have hostne : lowerChars (hp.takeWhile (fun c => c ≠ ':')) ≠ [] := by
        simp only [lowerChars, List.map_eq_nil_iff]
        simpa using hne
      have hostfacts :
          ∀ c ∈ lowerChars (hp.takeWhile (fun c => c ≠ ':')),
            forbiddenHostChar c = false ∧ Char.toLower c = c := by
        intro c hc
        rcases List.mem_map.mp hc with ⟨c0, hc0, rfl⟩
        have hf0 : forbiddenHostChar c0 = false := by
          have h2 : (hp.takeWhile (fun c => c ≠ ':')).any forbiddenHostChar = false :=
            Bool.eq_false_iff.mpr hforb
          exact Bool.eq_false_iff.mpr (List.any_eq_false.mp h2 c0 hc0)
        exact ⟨toLower_not_forbidden hf0, toLower_idem c0⟩
      split at h
      · cases h
        exact ⟨rfl, hostne, hostfacts, fun p hp' => by cases hp'⟩
      · split at h
        · cases h
          exact ⟨rfl, hostne, hostfacts, fun p hp' => by cases hp'⟩
        · split at h
          · split at h
            · split at h
              · cases h
                exact ⟨rfl, hostne, hostfacts, fun p hp' => by cases hp'⟩
              · next hdig hle hnedef =>
                cases h
                refine ⟨rfl, hostne, hostfacts, fun p hp' => ?_⟩
                cases hp'
                have hdigits : ∀ c ∈ _, isDigitChar c = true :=
                  List.all_eq_true.mp hdig
                refine ⟨canonPort_ne_nil _, canonPort_digits hdigits,
                        canonPort_idem _, ?_, ?_⟩
                · rw [canonPort_value]; exact hle
                · rw [canonPort_value]; exact hnedef
            · cases h
          · cases h

/-! Re-parsing a serialized origin. -/

theorem dropWhile_eq_nil_of_all {α : Type} {p : α → Bool} :
    ∀ (l : List α), (∀ a ∈ l, p a = true) → l.dropWhile p = [] := by
  intro l
  induction l with
  | nil => intro _; rfl
  | cons a t ih =>
    intro h
    rw [List.dropWhile_cons_of_pos (h a (by simp))]
    exact ih (fun b hb => h b (by simp [hb]))

/-- A non-forbidden character is none of the URL delimiters and is not
whitespace. -/
theorem host_char_props {c : Char} (h : forbiddenHostChar c = false) :
    c ≠ '/' ∧ c ≠ '?' ∧ c ≠ '#' ∧ c ≠ '\\' ∧ c ≠ '@' ∧ c ≠ ':' ∧
    c.isWhitespace = false := by
  obtain ⟨h0, h9, h10, h13, h32, h35, h47, h58, h60, h62, h63, h64,
          h91, h92, h93, h94, h124⟩ := forbidden_false_facts h
  exact ⟨ne_of_toNat_ne h47, ne_of_toNat_ne h63, ne_of_toNat_ne h35,
         ne_of_toNat_ne h92, ne_of_toNat_ne h64, ne_of_toNat_ne h58,
         isWhitespace_eq_false h9 h10 h13 h32⟩

/-- The characters of the authority part of a serialized origin avoid
all delimiters that could cut re-parsing short. -/
theorem origin_authority_chars {u : ParsedURL}
    (hhc : ∀ c ∈ u.host, forbiddenHostChar c = false ∧ Char.toLower c = c)
    (hdig : ∀ p, u.port = some p → ∀ c ∈ p, isDigitChar c = true) :
    ∀ c ∈ u.host ++ portTail u.port,
      c ≠ '/' ∧ c ≠ '?' ∧ c ≠ '#' ∧ c ≠ '\\' ∧ c ≠ '@' := by
  intro c hcm
  rcases List.mem_append.mp hcm with hcm | hcm
  · have hp := host_char_props (hhc c hcm).1
    exact ⟨hp.1, hp.2.1, hp.2.2.1, hp.2.2.2.1, hp.2.2.2.2.1⟩
  · cases hport : u.port with
    | none => rw [hport] at hcm; simp [portTail] at hcm
    | some p =>
      rw [hport] at hcm
      simp only [portTail, List.mem_cons] at hcm
      rcases hcm with rfl | hcm
      · exact ⟨by decide, by decide, by decide, by decide, by decide⟩
      · have hb := isDigitChar_toNat (hdig p hport c hcm)
        exact ⟨ne_of_toNat_ne (show c.toNat ≠ 47 by omega),
               ne_of_toNat_ne (show c.toNat ≠ 63 by omega),
               ne_of_toNat_ne (show c.toNat ≠ 35 by omega),
               ne_of_toNat_ne (show c.toNat ≠ 92 by omega),
               ne_of_toNat_ne (show c.toNat ≠ 64 by omega)⟩

theorem schemeAndRest_originChars {u : ParsedURL}
    (hs : u.scheme = "http".data ∨ u.scheme = "https".data)
    (hh : u.host ≠ []) :
    schemeAndRest (originChars u) =
      some (u.scheme, u.host ++ portTail u.port) := by
  obtain ⟨hc, ht, hhost⟩ : ∃ c t, u.host = c :: t := by
    cases hcase : u.host with
    | nil => exact absurd hcase hh
    | cons a t => exact ⟨a, t, rfl⟩
  rcases hs with hs | hs
  · rw [show originChars u = "http://".data ++ (u.host ++ portTail u.port) from by
        unfold originChars
        rw [hs,
          show ("http".data ++ "://".data : List Char) = "http://".data from rfl,
          List.append_assoc]]
    rw [hhost, hs]
    rfl
  · rw [show originChars u = "https://".data ++ (u.host ++ portTail u.port) from by
        unfold originChars
        rw [hs,
          show ("https".data ++ "://".data : List Char) = "https://".data from rfl,
          List.append_assoc]]
    rw [hhost, hs]
    rfl

theorem parseHttpUrl_eq_of_schemeAndRest {cs scheme rest : List Char}
    (h : schemeAndRest cs = some (scheme, rest)) :
    parseHttpUrl cs =
      parseHostPort scheme
        (((rest.takeWhile
            (fun c => c ≠ '/' && c ≠ '?' && c ≠ '#' && c ≠ '\\')).reverse.takeWhile
            (fun c => c ≠ '@')).reverse) := by
  unfold parseHttpUrl
  rw [h]

theorem parseHostPort_originChars (sch host : List Char)
    (port : Option (List Char))
    (hh : host ≠ [])
    (hhc : ∀ c ∈ host, forbiddenHostChar c = false ∧ Char.toLower c = c)
    (hpp : ∀ p, port = some p →
       p ≠ [] ∧ (∀ c ∈ p, isDigitChar c = true) ∧ canonPort p = p ∧
       portValue p ≤ 65535 ∧ portValue p ≠ defaultPortValue sch) :
    parseHostPort sch (host ++ portTail port) = some ⟨sch, host, port⟩ := by
  have hostColon : ∀ c ∈ host, ((c ≠ ':' : Bool)) = true := fun c hcm => by
    simpa using (host_char_props (hhc c hcm).1).2.2.2.2.2.1
  have hostLow : lowerChars host = host := by
    have h1 : host.map Char.toLower = host.map (fun c => c) :=
      List.map_congr_left (fun c hcm => (hhc c hcm).2)
    simpa [lowerChars] using h1
  have hEmp : ¬(host.isEmpty = true) := by simpa using hh
  have hAny : ¬(host.any forbiddenHostChar = true) := by
    have hfalse : host.any forbiddenHostChar = false :=
      List.any_eq_false.mpr (fun x hx => by simp [(hhc x hx).1])
    rw [hfalse]
    exact Bool.false_ne_true
  cases port with
  | none =>
    have htw : ((host ++ portTail none).takeWhile (fun c => c ≠ ':')) = host := by
      rw [show portTail none = [] from rfl, List.append_nil]
      exact takeWhile_eq_self_of_all _ hostColon
    have hdw : ((host ++ portTail none).dropWhile (fun c => c ≠ ':')) = [] := by
      rw [show portTail none = [] from rfl, List.append_nil]
      exact dropWhile_eq_nil_of_all _ hostColon
    unfold parseHostPort
    dsimp only
    rw [htw, hdw, if_neg hEmp, if_neg hAny, hostLow]
  | some p =>
    obtain ⟨hpne, hpdig, hpcanon, hple, hpnedef⟩ := hpp p rfl
    have htw : ((host ++ portTail (some p)).takeWhile (fun c => c ≠ ':')) = host := by
      rw [show portTail (some p) = ':' :: p from rfl,
        @List.takeWhile_append_of_pos _ _ host (':' :: p) hostColon,
        List.takeWhile_cons_of_neg (by simp), List.append_nil]
    have hdw : ((host ++ portTail (some p)).dropWhile (fun c => c ≠ ':')) = ':' :: p := by
      rw [show portTail (some p) = ':' :: p from rfl,
        @List.dropWhile_append_of_pos _ _ host (':' :: p) hostColon,
        List.dropWhile_cons_of_neg (by simp)]
    unfold parseHostPort
    dsimp only
    rw [htw, hdw, if_neg hEmp, if_neg hAny]
    dsimp only
    rw [if_neg (by simpa using hpne),
      if_pos (List.all_eq_true.mpr hpdig),
      if_pos hple, if_neg hpnedef, hostLow, hpcanon]

/-- Re-parsing a serialized origin recovers the same components. -/
theorem parse_originChars {u : ParsedURL}
    (hs : u.scheme = "http".data ∨ u.scheme = "https".data)
    (hh : u.host ≠ [])
    (hhc : ∀ c ∈ u.host, forbiddenHostChar c = false ∧ Char.toLower c = c)
    (hpp : ∀ p, u.port = some p →
       p ≠ [] ∧ (∀ c ∈ p, isDigitChar c = true) ∧ canonPort p = p ∧
       portValue p ≤ 65535 ∧ portValue p ≠ defaultPortValue u.scheme) :
    parseHttpUrl (originChars u) = some u := by
  have hmem := origin_authority_chars hhc (fun p hp' => (hpp p hp').2.1)
  rw [parseHttpUrl_eq_of_schemeAndRest (schemeAndRest_originChars hs hh)]
  rw [takeWhile_eq_self_of_all (u.host ++ portTail u.port)
      (fun c hcm => by
        have h5 := hmem c hcm
        simp [h5.1, h5.2.1, h5.2.2.1, h5.2.2.2.1])]
  rw [takeWhile_eq_self_of_all (u.host ++ portTail u.port).reverse
      (fun c hcm => by
        simp [(hmem c (List.mem_reverse.mp hcm)).2.2.2.2])]
  rw [List.reverse_reverse]
  exact parseHostPort_originChars u.scheme u.host u.port hh hhc hpp

theorem parseHttpUrl_inv {cs : List Char} {u : ParsedURL}
    (h : parseHttpUrl cs = some u) :
    (u.scheme = "http".data ∨ u.scheme = "https".data) ∧
    u.host ≠ [] ∧
    (∀ c ∈ u.host, forbiddenHostChar c = false ∧ Char.toLower c = c) ∧
    (∀ p, u.port = some p →
       p ≠ [] ∧ (∀ c ∈ p, isDigitChar c = true) ∧ canonPort p = p ∧
       portValue p ≤ 65535 ∧ portValue p ≠ defaultPortValue u.scheme) := by
  unfold parseHttpUrl at h
  split at h
  · cases h
  · next scheme rest heq =>
    dsimp only at h
    obtain ⟨h1, h2, h3, h4⟩ := parseHostPort_inv h
    refine ⟨?_, h2, h3, fun p hp' => ?_⟩
    · rcases schemeAndRest_inv heq with hsw | hsw
      · exact Or.inr (h1.trans hsw)
      · exact Or.inl (h1.trans hsw)
    · have := h4 p hp'
      rwa [h1]

/-- No character of a serialized origin is whitespace. -/
theorem originChars_not_ws {u : ParsedURL}
    (hs : u.scheme = "http".data ∨ u.scheme = "https".data)
    (hhc : ∀ c ∈ u.host, forbiddenHostChar c = false ∧ Char.toLower c = c)
    (hdig : ∀ p, u.port = some p → ∀ c ∈ p, isDigitChar c = true) :
    ∀ c ∈ originChars u, c.isWhitespace = false := by
  intro c hcm
  unfold originChars at hcm
  rcases List.mem_append.mp hcm with hcm | hcm
  · rcases List.mem_append.mp hcm with hcm | hcm
    · rcases List.mem_append.mp hcm with hcm | hcm
      · rcases hs with hs | hs <;> rw [hs] at hcm
        · exact (by decide : ∀ x ∈ "http".data, x.isWhitespace = false) c hcm
        · exact (by decide : ∀ x ∈ "https".data, x.isWhitespace = false) c hcm
      · exact (by decide : ∀ x ∈ "://".data, x.isWhitespace = false) c hcm
    · exact (host_char_props (hhc c hcm).1).2.2.2.2.2.2
  · cases hport : u.port with
    | none => rw [hport] at hcm; simp [portTail] at hcm
    | some p =>
      rw [hport] at hcm
      simp only [portTail, List.mem_cons] at hcm
      rcases hcm with rfl | hcm
      · decide
      · have hb := isDigitChar_toNat (hdig p hport c hcm)
        exact isWhitespace_eq_false (by omega) (by omega) (by omega) (by omega)

/-- A serialized origin passes the scheme test of `normalizeUrl`. -/
theorem originChars_hasScheme {u : ParsedURL}
    (hs : u.scheme = "http".data ∨ u.scheme = "https".data)
    (hh : u.host ≠ []) :
    hasHttpScheme (originChars u) = true := by
  obtain ⟨sch, host, port⟩ := u
  rcases host with _ | ⟨hc, ht⟩
  · exact absurd rfl hh
  · rcases hs with hs | hs
    · rw [show ParsedURL.scheme ⟨sch, hc :: ht, port⟩ = sch from rfl] at hs
      subst hs
      rfl
    · rw [show ParsedURL.scheme ⟨sch, hc :: ht, port⟩ = sch from rfl] at hs
      subst hs
      rfl

/-- C10: the Normalizer is idempotent — whenever normalization succeeds
with origin `o`, normalizing `o` again succeeds and returns `o`. -/
theorem C10_normalize_idempotent (s o : String)
    (h : normalizeUrl s = some o) :
    normalizeUrl o = some o := by
  unfold normalizeUrl at h
  dsimp only at h
  rcases Option.map_eq_some'.mp h with ⟨u, hu, rfl⟩
  obtain ⟨hsch, hh, hhc, hpp⟩ := parseHttpUrl_inv hu
  unfold normalizeUrl
  dsimp only
  rw [jsTrimChars_eq_self
      (originChars_not_ws hsch hhc (fun p hp' => (hpp p hp').2.1))]
  rw [if_pos (originChars_hasScheme hsch hh)]
  rw [parse_originChars hsch hh hhc hpp]
  rfl

/-- C10 witness: normalizing an already-normalized origin is a
fixpoint at a concrete input. -/
theorem C10_normalize_idempotent_witness :
    normalizeUrl "https://example.com" = some "https://example.com" :=
  C10_normalize_idempotent " Example.com:00443/shop?q=1 " "https://example.com"
    (by decide)

end Crawler
